import Mathlib

/-!
# MainWindow (src/mainwindow.cpp)

A shallow embedding of the window shell of the application: the constructor
`MainWindow::MainWindow(QWidget *parent)` and the destructor
`MainWindow::~MainWindow()`, over an explicit model of the parts of the GUI
toolkit they call (widget geometry, the signal/slot connection table, the
allocation of the UI descriptor and the process-wide quit action).

The toolkit operations follow their documented contracts:

* `QWidget::resize` adjusts the requested size to the range given by
  `minimumSize()` and `maximumSize()`;
* `QWidget::setFixedSize` sets both the minimum and the maximum size and
  resizes the widget;
* `QObject::connect(sender, signal, context, functor)` appends a connection
  which is severed when the sender or the context object is destroyed;
* emitting a signal calls the connected slots in connection order, each with
  as many leading arguments of the signal as the slot accepts.
-/

namespace QtTestApp

/-! ## Widget geometry -/

/-- Width and height of a widget, both C++ `int`. -/
structure QSize where
  width : Int
  height : Int
deriving DecidableEq, Repr

/-- `QSize::boundedTo`: the componentwise minimum. -/
def QSize.boundedTo (s o : QSize) : QSize :=
  ⟨min s.width o.width, min s.height o.height⟩

/-- `QSize::expandedTo`: the componentwise maximum. -/
def QSize.expandedTo (s o : QSize) : QSize :=
  ⟨max s.width o.width, max s.height o.height⟩

/-- The toolkit constant `QWIDGETSIZE_MAX`, the default maximum extent. -/
def QWIDGETSIZE_MAX : Int := 16777215

/-- The geometry a `QWidget` base sub-object keeps: its current size and the
two size constraints. -/
structure QWidget where
  size : QSize
  minimumSize : QSize
  maximumSize : QSize
deriving DecidableEq, Repr

/-- A freshly constructed widget: no constraints, and the default rectangle,
which is 100x30 when a parent widget is given and 640x480 otherwise. -/
def QWidget.init (hasParent : Bool) : QWidget :=
  { size := if hasParent then ⟨100, 30⟩ else ⟨640, 480⟩
    minimumSize := ⟨0, 0⟩
    maximumSize := ⟨QWIDGETSIZE_MAX, QWIDGETSIZE_MAX⟩ }

/-- `QWidget::resize(s)`: the new size is `s` bounded to the maximum size and
then expanded to the minimum size. -/
def QWidget.resize (g : QWidget) (s : QSize) : QWidget :=
  { g with size := (s.boundedTo g.maximumSize).expandedTo g.minimumSize }

/-- `QWidget::setMinimumSize(minw, minh)`: records the constraint and forces
the widget up to it when the current size is smaller. -/
def QWidget.setMinimumSize (g : QWidget) (minw minh : Int) : QWidget :=
  let g1 := { g with minimumSize := ⟨minw, minh⟩ }
  if minw > g1.size.width ∨ minh > g1.size.height then
    g1.resize ⟨max minw g1.size.width, max minh g1.size.height⟩
  else g1

/-- `QWidget::setMaximumSize(maxw, maxh)`: records the constraint and forces
the widget down to it when the current size is larger. -/
def QWidget.setMaximumSize (g : QWidget) (maxw maxh : Int) : QWidget :=
  let g1 := { g with maximumSize := ⟨maxw, maxh⟩ }
  if maxw < g1.size.width ∨ maxh < g1.size.height then
    g1.resize ⟨min maxw g1.size.width, min maxh g1.size.height⟩
  else g1

/-- `QWidget::setFixedSize(w, h)`: sets both the minimum and the maximum size
to `(w, h)` and resizes the widget to it. -/
def QWidget.setFixedSize (g : QWidget) (w h : Int) : QWidget :=
  ((g.setMinimumSize w h).setMaximumSize w h).resize ⟨w, h⟩

/-! ## Objects, signals and slots -/

/-- Identity of a `QObject`: a top-level object, or a named child control that
an object owns (the fields of the UI descriptor, such as `ui->exitButton`). -/
inductive QObjectRef
  | object (id : Nat)
  | child (owner : Nat) (objectName : String)
deriving DecidableEq, Repr

/-- The top-level object in whose object tree a reference lives. -/
def QObjectRef.tree : QObjectRef → Nat
  | .object id => id
  | .child owner _ => owner

/-- The signals of a push button (`QAbstractButton`). -/
inductive Signal
  | clicked
  | pressed
  | released
  | toggled
deriving DecidableEq, Repr

/-- One emission of a button signal with its arguments:
`clicked(bool checked = false)`, `pressed()`, `released()`,
`toggled(bool checked)`. -/
inductive Emission
  | clicked (checked : Bool)
  | pressed
  | released
  | toggled (checked : Bool)
deriving DecidableEq, Repr

/-- The signal an emission belongs to. -/
def Emission.signal : Emission → Signal
  | .clicked _ => .clicked
  | .pressed => .pressed
  | .released => .released
  | .toggled _ => .toggled

/-- The arguments an emission carries. -/
def Emission.arguments : Emission → List Bool
  | .clicked checked => [checked]
  | .pressed => []
  | .released => []
  | .toggled checked => [checked]

/-- The static slots of `QApplication`. -/
inductive Slot
  | quit
  | closeAllWindows
  | aboutQt
deriving DecidableEq, Repr

/-- Number of parameters of a slot; all three are declared `()`. -/
def Slot.arity : Slot → Nat
  | .quit => 0
  | .closeAllWindows => 0
  | .aboutQt => 0

/-- One entry of the connection table, as made by
`connect(sender, signal, context, slot)`. -/
structure Connection where
  sender : QObjectRef
  signal : Signal
  context : QObjectRef
  slot : Slot
deriving DecidableEq, Repr

/-! ## Process state -/

/-- The state of the process outside the window object: the allocator of UI
descriptors with a log of every `new` and `delete`, the identities handed out
to objects, the connection table, and the log of calls of the quit action
(one entry per call, holding the arguments passed). -/
structure Process where
  nextObject : Nat
  nextUi : Nat
  liveUi : List Nat
  newLog : List Nat
  deleteLog : List Nat
  connections : List Connection
  quitLog : List (List Bool)
deriving DecidableEq, Repr

/-- The process at start: nothing allocated, nothing connected, quit never
called. -/
def Process.init : Process :=
  { nextObject := 0, nextUi := 0, liveUi := [], newLog := [], deleteLog := [],
    connections := [], quitLog := [] }

/-- Number of calls of the quit action so far. -/
def Process.quitCount (p : Process) : Nat := p.quitLog.length

/-- Number of live UI descriptors. -/
def Process.liveCount (p : Process) : Nat := p.liveUi.length

/-- `new Ui::MainWindow`: a fresh descriptor, now live. -/
def Process.newUi (p : Process) : Nat × Process :=
  (p.nextUi,
   { p with nextUi := p.nextUi + 1
            liveUi := p.nextUi :: p.liveUi
            newLog := p.newLog ++ [p.nextUi] })

/-- `delete ui`: releases a live descriptor; deleting one that is not live
(a second time, or never allocated) has no defined result. -/
def Process.deleteUi (p : Process) (ui : Nat) : Option Process :=
  if ui ∈ p.liveUi then
    some { p with liveUi := p.liveUi.erase ui
                  deleteLog := p.deleteLog ++ [ui] }
  else none

/-- `QObject::connect`: appends one connection to the table. -/
def Process.connect (p : Process) (sender : QObjectRef) (signal : Signal)
    (context : QObjectRef) (slot : Slot) : Process :=
  { p with connections := p.connections ++ [⟨sender, signal, context, slot⟩] }

/-- Calling a slot: `quit` is recorded with the arguments it was given; the
other slots do not touch the state modelled here. -/
def Process.invoke (p : Process) (slot : Slot) (args : List Bool) : Process :=
  match slot with
  | .quit => { p with quitLog := p.quitLog ++ [args] }
  | .closeAllWindows => p
  | .aboutQt => p

/-- Delivery of an emission to one connection: the slot is called when sender
and signal match, with the leading arguments the slot accepts. -/
def Process.deliver (sender : QObjectRef) (e : Emission) (p : Process)
    (c : Connection) : Process :=
  if c.sender = sender ∧ c.signal = e.signal then
    p.invoke c.slot (e.arguments.take c.slot.arity)
  else p

/-- Emission of a signal by `sender`: every connection of the table is
served, in connection order. -/
def Process.emit (p : Process) (sender : QObjectRef) (e : Emission) : Process :=
  p.connections.foldl (Process.deliver sender e) p

/-- `QObject::~QObject` of a top-level object: the object and its children
are gone, and every connection they send or receive is severed. -/
def Process.destroyed (p : Process) (id : Nat) : Process :=
  { p with connections :=
      p.connections.filter (fun c => decide (c.sender.tree ≠ id ∧ c.context.tree ≠ id)) }

/-- No connection of the table mentions an object that does not exist yet, and
no live descriptor is one the allocator has yet to hand out. -/
def Process.WellFormed (p : Process) : Prop :=
  (∀ c ∈ p.connections, c.sender.tree < p.nextObject ∧ c.context.tree < p.nextObject) ∧
  (∀ u ∈ p.liveUi, u < p.nextUi)

instance (p : Process) : Decidable p.WellFormed := by
  unfold Process.WellFormed; infer_instance

/-! ## The window -/

/-- The `MainWindow` object: its identity (`this`), the `parent` it was given,
the geometry of its `QMainWindow` base and the member `ui`. -/
structure MainWindow where
  self : Nat
  parent : Option Nat
  widget : QWidget
  ui : Nat
deriving DecidableEq, Repr

/-- Modelled from the spec: `Ui::MainWindow` (the generated `ui_mainwindow.h`)
is not among the sources. The descriptor "applies its declared layout to the
window": `setupUi` is any transformation of the geometry of the window. The
exit control it declares is the field `exitButton`. -/
structure Ui_MainWindow where
  setupUi : QWidget → QWidget

/-- The control `ui->exitButton` of the window with identity `self`. -/
def exitButton (self : Nat) : QObjectRef := .child self "exitButton"

/-- The constructor `MainWindow::MainWindow(QWidget *parent)`:
base and member initialisers, then `ui->setupUi(this)`,
`setFixedSize(400, 300)` and
`connect(ui->exitButton, &QPushButton::clicked, this, &QApplication::quit)`. -/
def MainWindow.construct (layout : Ui_MainWindow) (parent : Option Nat)
    (p : Process) : MainWindow × Process :=
  let self := p.nextObject
  let base := QWidget.init parent.isSome
  let p0 := { p with nextObject := p.nextObject + 1 }
  let (ui, p1) := p0.newUi
  let g1 := layout.setupUi base
  let g2 := g1.setFixedSize 400 300
  let p2 := p1.connect (exitButton self) .clicked (.object self) .quit
  ({ self := self, parent := parent, widget := g2, ui := ui }, p2)

/-- The destructor `MainWindow::~MainWindow()`: the body `delete ui;`, then
the destructors of the bases. -/
def MainWindow.destroy (w : MainWindow) (p : Process) : Option Process :=
  match p.deleteUi w.ui with
  | none => none
  | some p1 => some (p1.destroyed w.self)

/-- What the event loop delivers to a window: a request to resize it to
`(w, h)` (by a call of `resize` or by the user through the window system,
which honours the size constraints), or a signal emitted by one of its
controls. -/
inductive Event
  | resizeRequest (w h : Int)
  | control (objectName : String) (e : Emission)
deriving DecidableEq, Repr

/-- A click on the exit control, with the `checked` argument of the signal. -/
def Event.exitClick (checked : Bool) : Event :=
  .control "exitButton" (.clicked checked)

/-- Whether an event is a click on the exit control. -/
def Event.isExitClick : Event → Bool
  | .control objectName (.clicked _) => objectName == "exitButton"
  | _ => false

/-- Handling of one event by a live window. -/
def MainWindow.handle (s : MainWindow × Process) (e : Event) : MainWindow × Process :=
  match e with
  | .resizeRequest w h => ({ s.1 with widget := s.1.widget.resize ⟨w, h⟩ }, s.2)
  | .control objectName em => (s.1, s.2.emit (.child s.1.self objectName) em)

/-- Handling of a sequence of events, in order. -/
def MainWindow.run (s : MainWindow × Process) (evs : List Event) : MainWindow × Process :=
  evs.foldl MainWindow.handle s

/-- Signals that arrive for the controls of the object `self` when no such
window is alive any more: only the connection table decides what is called. -/
def Process.stale (self : Nat) (p : Process) (e : Event) : Process :=
  match e with
  | .resizeRequest _ _ => p
  | .control objectName em => p.emit (.child self objectName) em

/-- Construct a window and destroy it again. -/
def constructDestroy (layout : Ui_MainWindow) (parent : Option Nat)
    (p : Process) : Option Process :=
  let s := MainWindow.construct layout parent p
  s.1.destroy s.2

/-- The test loop: construct then destroy, `n` times in a row. -/
def constructDestroyLoop (layout : Ui_MainWindow) (parent : Option Nat) :
    Nat → Process → Option Process
  | 0, p => some p
  | n + 1, p =>
    match constructDestroy layout parent p with
    | none => none
    | some p1 => constructDestroyLoop layout parent n p1


/-! ## Auxiliary definitions for the statements -/

/-- Number of connections of the table that bind the signal `sig` of `sender`
to the quit action. -/
def Process.quitBindings (p : Process) (sender : QObjectRef) (sig : Signal) : Nat :=
  p.connections.countP (fun c => decide (c.sender = sender ∧ c.signal = sig ∧ c.slot = .quit))

/-- Number of calls of the quit action that handling `e` makes, for the window
with identity `self`. -/
def Process.quitsOf (p : Process) (self : Nat) : Event → Nat
  | .resizeRequest _ _ => 0
  | .control objectName em => p.quitBindings (.child self objectName) em.signal

/-- The process after `k` further calls of the quit action without arguments,
everything else unchanged. -/
def Process.withQuits (p : Process) (k : Nat) : Process :=
  { p with quitLog := p.quitLog ++ List.replicate k [] }

/-- The binding that the constructor of the window `self` installs. -/
def exitBinding (self : Nat) : Connection :=
  ⟨exitButton self, .clicked, .object self, .quit⟩

/-- A layout used to instantiate the statements: the descriptor asks for a
window of 800x600. -/
def sampleLayout : Ui_MainWindow := ⟨fun g => g.resize ⟨800, 600⟩⟩

/-- A well-formed process in which an earlier window (object 0, descriptor 0)
is alive and its exit control was clicked once. -/
def busyProcess : Process :=
  { nextObject := 1, nextUi := 1, liveUi := [0], newLog := [0], deleteLog := [],
    connections := [exitBinding 0], quitLog := [[]] }

/-! ## Geometry lemmas -/

theorem setMinimumSize_minimumSize (g : QWidget) (w h : Int) :
    (g.setMinimumSize w h).minimumSize = ⟨w, h⟩ := by
  unfold QWidget.setMinimumSize QWidget.resize
  dsimp only
  split <;> rfl

theorem setMaximumSize_fields (g : QWidget) (w h : Int) :
    (g.setMaximumSize w h).maximumSize = ⟨w, h⟩ ∧
    (g.setMaximumSize w h).minimumSize = g.minimumSize := by
  unfold QWidget.setMaximumSize QWidget.resize
  dsimp only
  split <;> exact ⟨rfl, rfl⟩

theorem resize_of_fixed (g : QWidget) (s r : QSize)
    (hmin : g.minimumSize = s) (hmax : g.maximumSize = s) :
    (g.resize r).size = s ∧ (g.resize r).minimumSize = s ∧ (g.resize r).maximumSize = s := by
  refine ⟨?_, hmin, hmax⟩
  obtain ⟨sw, sh⟩ := s
  simp only [QWidget.resize, QSize.boundedTo, QSize.expandedTo, hmin, hmax, QSize.mk.injEq]
  constructor <;> omega

theorem setFixedSize_eq (g : QWidget) (w h : Int) :
    g.setFixedSize w h = ⟨⟨w, h⟩, ⟨w, h⟩, ⟨w, h⟩⟩ := by
  have h1 := setMinimumSize_minimumSize g w h
  have h2 := setMaximumSize_fields (g.setMinimumSize w h) w h
  have h3 := resize_of_fixed ((g.setMinimumSize w h).setMaximumSize w h) ⟨w, h⟩ ⟨w, h⟩
    (h2.2.trans h1) h2.1
  unfold QWidget.setFixedSize
  generalize (((g.setMinimumSize w h).setMaximumSize w h).resize ⟨w, h⟩) = r at h3
  obtain ⟨a, b, c⟩ := r
  obtain ⟨ha, hb, hc⟩ := h3
  simp only at ha hb hc
  subst ha hb hc
  rfl

theorem resize_fixed_eq (g : QWidget) (s r : QSize)
    (hg : g = ⟨s, s, s⟩) : g.resize r = g := by
  have h3 := resize_of_fixed g s r (by rw [hg]) (by rw [hg])
  generalize g.resize r = q at h3
  obtain ⟨a, b, c⟩ := q
  obtain ⟨ha, hb, hc⟩ := h3
  simp only at ha hb hc
  subst ha hb hc
  exact hg.symm

/-! ## Signal delivery lemmas -/

theorem withQuits_zero (p : Process) : p.withQuits 0 = p := by
  cases p
  simp only [Process.withQuits, List.replicate_zero, List.append_nil]

theorem withQuits_add (p : Process) (a b : Nat) :
    (p.withQuits a).withQuits b = p.withQuits (a + b) := by
  simp [Process.withQuits, List.append_assoc]

theorem deliver_eq (sender : QObjectRef) (e : Emission) (p : Process) (c : Connection) :
    Process.deliver sender e p c =
      p.withQuits (if c.sender = sender ∧ c.signal = e.signal ∧ c.slot = .quit then 1 else 0) := by
  obtain ⟨cs, cg, cc, ct⟩ := c
  unfold Process.deliver
  by_cases h : cs = sender ∧ cg = e.signal
  · cases ct <;> simp [h, Process.invoke, Slot.arity, Process.withQuits]
  · have h2 : ¬ (cs = sender ∧ cg = e.signal ∧ ct = Slot.quit) := fun h3 => h ⟨h3.1, h3.2.1⟩
    simp [h, h2, Process.withQuits]

theorem foldl_deliver_eq (sender : QObjectRef) (e : Emission) (l : List Connection)
    (q : Process) :
    l.foldl (Process.deliver sender e) q =
      q.withQuits
        (l.countP (fun c => decide (c.sender = sender ∧ c.signal = e.signal ∧ c.slot = .quit))) := by
  induction l generalizing q with
  | nil => simp [withQuits_zero]
  | cons c l ih =>
    rw [List.foldl_cons, ih, deliver_eq, withQuits_add, List.countP_cons]
    by_cases h : c.sender = sender ∧ c.signal = e.signal ∧ c.slot = .quit
    · simp [h, Nat.add_comm]
    · simp [h]

theorem emit_eq (p : Process) (sender : QObjectRef) (e : Emission) :
    p.emit sender e = p.withQuits (p.quitBindings sender e.signal) := by
  unfold Process.emit Process.quitBindings
  exact foldl_deliver_eq sender e p.connections p

theorem quitsOf_withQuits (p : Process) (k self : Nat) :
    (p.withQuits k).quitsOf self = p.quitsOf self := by
  funext e
  cases e <;> rfl

theorem handle_eq (s : MainWindow × Process) (sz : QSize) (e : Event)
    (hfix : s.1.widget = ⟨sz, sz, sz⟩) :
    MainWindow.handle s e = (s.1, s.2.withQuits (s.2.quitsOf s.1.self e)) := by
  obtain ⟨w, p⟩ := s
  cases e with
  | resizeRequest a b =>
    have hr := resize_fixed_eq w.widget sz ⟨a, b⟩ hfix
    simp [MainWindow.handle, Process.quitsOf, hr, withQuits_zero]
  | control n em =>
    simp [MainWindow.handle, Process.quitsOf, emit_eq]

theorem run_eq (s : MainWindow × Process) (sz : QSize) (evs : List Event)
    (hfix : s.1.widget = ⟨sz, sz, sz⟩) :
    MainWindow.run s evs =
      (s.1, s.2.withQuits ((evs.map (s.2.quitsOf s.1.self)).sum)) := by
  unfold MainWindow.run
  induction evs generalizing s with
  | nil => simp [withQuits_zero]
  | cons e evs ih =>
    have hstep := ih (s.1, s.2.withQuits (s.2.quitsOf s.1.self e)) hfix
    rw [List.foldl_cons, handle_eq s sz e hfix, hstep]
    simp [withQuits_add, quitsOf_withQuits]

/-! ## Construction and destruction lemmas -/

theorem construct_fst (layout : Ui_MainWindow) (parent : Option Nat) (p : Process) :
    (MainWindow.construct layout parent p).1 =
      { self := p.nextObject, parent := parent,
        widget := ⟨⟨400, 300⟩, ⟨400, 300⟩, ⟨400, 300⟩⟩, ui := p.nextUi } := by
  simp [MainWindow.construct, Process.newUi, setFixedSize_eq]

theorem construct_snd (layout : Ui_MainWindow) (parent : Option Nat) (p : Process) :
    (MainWindow.construct layout parent p).2 =
      { nextObject := p.nextObject + 1, nextUi := p.nextUi + 1,
        liveUi := p.nextUi :: p.liveUi, newLog := p.newLog ++ [p.nextUi],
        deleteLog := p.deleteLog,
        connections := p.connections ++ [exitBinding p.nextObject],
        quitLog := p.quitLog } := rfl

theorem quitBindings_fresh (p : Process) (hp : p.WellFormed) (n : String) (sig : Signal) :
    p.quitBindings (.child p.nextObject n) sig = 0 := by
  unfold Process.quitBindings
  rw [List.countP_eq_zero]
  intro c hc
  have h := (hp.1 c hc).1
  simp only [decide_eq_true_eq, not_and]
  intro hs
  rw [hs] at h
  exact absurd h (Nat.lt_irrefl _)

theorem construct_quitsOf (layout : Ui_MainWindow) (parent : Option Nat) (p : Process)
    (hp : p.WellFormed) (e : Event) :
    (MainWindow.construct layout parent p).2.quitsOf p.nextObject e =
      if e.isExitClick then 1 else 0 := by
  cases e with
  | resizeRequest a b => rfl
  | control n em =>
    have h0 := quitBindings_fresh p hp n em.signal
    unfold Process.quitBindings at h0
    rw [construct_snd]
    simp only [Process.quitsOf, Process.quitBindings, List.countP_append, h0, Nat.zero_add]
    cases em with
    | clicked c =>
      by_cases hn : n = "exitButton"
      · subst hn
        simp [exitBinding, exitButton, Emission.signal, Event.isExitClick, List.countP_cons]
      · have hn2 : ¬ ("exitButton" = n) := fun h => hn h.symm
        simp [exitBinding, exitButton, Emission.signal, Event.isExitClick, List.countP_cons,
          hn, hn2]
    | pressed =>
      simp [exitBinding, exitButton, Emission.signal, Event.isExitClick, List.countP_cons]
    | released =>
      simp [exitBinding, exitButton, Emission.signal, Event.isExitClick, List.countP_cons]
    | toggled c =>
      simp [exitBinding, exitButton, Emission.signal, Event.isExitClick, List.countP_cons]

theorem construct_run (layout : Ui_MainWindow) (parent : Option Nat) (p : Process)
    (hp : p.WellFormed) (evs : List Event) :
    MainWindow.run (MainWindow.construct layout parent p) evs =
      ((MainWindow.construct layout parent p).1,
       (MainWindow.construct layout parent p).2.withQuits
         (evs.countP Event.isExitClick)) := by
  rw [run_eq _ ⟨400, 300⟩ evs (by rw [construct_fst])]
  have hself : (MainWindow.construct layout parent p).1.self = p.nextObject := by
    rw [construct_fst]
  rw [hself]
  have hfun : (MainWindow.construct layout parent p).2.quitsOf p.nextObject =
      fun e => if e.isExitClick then 1 else 0 := by
    funext e
    exact construct_quitsOf layout parent p hp e
  rw [hfun]
  congr 2
  induction evs with
  | nil => rfl
  | cons e evs ih =>
    rw [List.map_cons, List.sum_cons, ih, List.countP_cons]
    cases e.isExitClick <;> simp [Nat.add_comm]

theorem run_window (layout : Ui_MainWindow) (parent : Option Nat) (p : Process)
    (evs : List Event) :
    (MainWindow.run (MainWindow.construct layout parent p) evs).1 =
      (MainWindow.construct layout parent p).1 ∧
    ∃ k, (MainWindow.run (MainWindow.construct layout parent p) evs).2 =
      (MainWindow.construct layout parent p).2.withQuits k := by
  rw [run_eq _ ⟨400, 300⟩ evs (by rw [construct_fst])]
  exact ⟨rfl, _, rfl⟩

theorem destroy_after_construct (layout : Ui_MainWindow) (parent : Option Nat) (p : Process)
    (k : Nat) :
    (MainWindow.construct layout parent p).1.destroy
        ((MainWindow.construct layout parent p).2.withQuits k) =
      some { nextObject := p.nextObject + 1, nextUi := p.nextUi + 1,
             liveUi := p.liveUi, newLog := p.newLog ++ [p.nextUi],
             deleteLog := p.deleteLog ++ [p.nextUi],
             connections := (p.connections ++ [exitBinding p.nextObject]).filter
               (fun c => decide (c.sender.tree ≠ p.nextObject ∧ c.context.tree ≠ p.nextObject)),
             quitLog := p.quitLog ++ List.replicate k [] } := by
  rw [construct_fst, construct_snd]
  simp [MainWindow.destroy, Process.deleteUi, Process.withQuits, Process.destroyed]

theorem filter_fresh (p : Process) (hp : p.WellFormed) :
    (p.connections ++ [exitBinding p.nextObject]).filter
      (fun c => decide (c.sender.tree ≠ p.nextObject ∧ c.context.tree ≠ p.nextObject)) =
    p.connections := by
  rw [List.filter_append]
  have h1 : p.connections.filter
      (fun c => decide (c.sender.tree ≠ p.nextObject ∧ c.context.tree ≠ p.nextObject)) =
      p.connections := by
    rw [List.filter_eq_self]
    intro c hc
    have h := hp.1 c hc
    simp only [decide_eq_true_eq]
    exact ⟨Nat.ne_of_lt h.1, Nat.ne_of_lt h.2⟩
  rw [h1]
  simp [exitBinding, exitButton, QObjectRef.tree]

theorem stale_eq (q : Process) (self : Nat)
    (hq : ∀ c ∈ q.connections, c.sender.tree ≠ self) (evs : List Event) :
    evs.foldl (Process.stale self) q = q := by
  induction evs with
  | nil => rfl
  | cons e evs ih =>
    have hstep : Process.stale self q e = q := by
      cases e with
      | resizeRequest a b => rfl
      | control n em =>
        have h0 : q.quitBindings (.child self n) em.signal = 0 := by
          unfold Process.quitBindings
          rw [List.countP_eq_zero]
          intro c hc
          simp only [decide_eq_true_eq, not_and]
          intro hs
          exact absurd (by rw [hs]; rfl) (hq c hc)
        simp only [Process.stale, emit_eq, h0, withQuits_zero]
    rw [List.foldl_cons, hstep, ih]

theorem constructDestroy_eq (layout : Ui_MainWindow) (parent : Option Nat) (p : Process) :
    ∃ p1, constructDestroy layout parent p = some p1 ∧ p1.liveUi = p.liveUi ∧
      p1.newLog = p.newLog ++ [p.nextUi] ∧ p1.deleteLog = p.deleteLog ++ [p.nextUi] := by
  have h := destroy_after_construct layout parent p 0
  rw [withQuits_zero] at h
  exact ⟨_, h, rfl, rfl, rfl⟩

/-! ## Well-formedness is kept by every operation -/

theorem init_wellFormed : Process.init.WellFormed := by
  decide

theorem construct_wellFormed (layout : Ui_MainWindow) (parent : Option Nat) (p : Process)
    (hp : p.WellFormed) : (MainWindow.construct layout parent p).2.WellFormed := by
  rw [construct_snd]
  constructor
  · intro c hc
    simp only [List.mem_append, List.mem_singleton] at hc
    rcases hc with hc | hc
    · exact ⟨Nat.lt_succ_of_lt (hp.1 c hc).1, Nat.lt_succ_of_lt (hp.1 c hc).2⟩
    · subst hc
      exact ⟨Nat.lt_succ_self _, Nat.lt_succ_self _⟩
  · intro u hu
    simp only [List.mem_cons] at hu
    rcases hu with hu | hu
    · subst hu
      exact Nat.lt_succ_self _
    · exact Nat.lt_succ_of_lt (hp.2 u hu)

theorem run_wellFormed (layout : Ui_MainWindow) (parent : Option Nat) (p : Process)
    (hp : p.WellFormed) (evs : List Event) :
    (MainWindow.run (MainWindow.construct layout parent p) evs).2.WellFormed := by
  obtain ⟨_, k, hk⟩ := run_window layout parent p evs
  rw [hk]
  exact construct_wellFormed layout parent p hp

theorem destroy_wellFormed (w : MainWindow) (p q : Process) (hp : p.WellFormed)
    (hq : w.destroy p = some q) : q.WellFormed := by
  unfold MainWindow.destroy Process.deleteUi at hq
  split at hq
  · exact absurd hq (by simp)
  · rename_i p1 h1
    split at h1
    · simp only [Option.some.injEq] at h1 hq
      subst h1
      subst hq
      constructor
      · intro c hc
        exact hp.1 c (List.mem_of_mem_filter hc)
      · intro u hu
        exact hp.2 u (List.mem_of_mem_erase hu)
    · exact absurd h1 (by simp)

/-! ## The claims -/

/-- C1: for every layout the descriptor applies and every parent argument,
the window right after construction has size exactly (400, 300), with minimum
size = maximum size = (400, 300); the constraint is applied to the geometry
that `setupUi` leaves. -/
theorem construct_size_is_fixed (layout : Ui_MainWindow) (parent : Option Nat) (p : Process) :
    (MainWindow.construct layout parent p).1.widget =
      (layout.setupUi (QWidget.init parent.isSome)).setFixedSize 400 300 ∧
    (MainWindow.construct layout parent p).1.widget.size = ⟨400, 300⟩ ∧
    (MainWindow.construct layout parent p).1.widget.minimumSize = ⟨400, 300⟩ ∧
    (MainWindow.construct layout parent p).1.widget.maximumSize = ⟨400, 300⟩ ∧
    (MainWindow.construct layout parent p).1.parent = parent := by
  refine ⟨rfl, ?_, ?_, ?_, ?_⟩ <;> rw [construct_fst]

/-- C2: for every finite sequence of click events on the exit control handled
by a constructed window, the number of calls of the quit action equals the
number of clicks, also when other events are interleaved; one click after
construction yields exactly one call. -/
theorem quit_count_equals_click_count (layout : Ui_MainWindow) (parent : Option Nat)
    (p : Process) (hp : p.WellFormed) (clicks : List Bool) (evs : List Event) (c : Bool) :
    (MainWindow.run (MainWindow.construct layout parent p)
        (clicks.map Event.exitClick)).2.quitCount = p.quitCount + clicks.length ∧
    (MainWindow.run (MainWindow.construct layout parent p) evs).2.quitCount =
      p.quitCount + evs.countP Event.isExitClick ∧
    (MainWindow.handle (MainWindow.construct layout parent p)
        (Event.exitClick c)).2.quitCount = p.quitCount + 1 := by
  have hgen : ∀ l : List Event,
      (MainWindow.run (MainWindow.construct layout parent p) l).2.quitCount =
        p.quitCount + l.countP Event.isExitClick := by
    intro l
    rw [construct_run layout parent p hp l, construct_snd]
    simp [Process.withQuits, Process.quitCount]
  refine ⟨?_, hgen evs, ?_⟩
  · rw [hgen, List.countP_map]
    congr 1
    rw [List.countP_eq_length]
    intro b _
    rfl
  · have h1 := hgen [Event.exitClick c]
    simpa [MainWindow.run, Event.exitClick, Event.isExitClick] using h1

/-- C3: after every prefix of every sequence of events handled by a
constructed window, resize requests with any width and height included, the
size of the window is exactly (400, 300). -/
theorem size_invariant_under_resize (layout : Ui_MainWindow) (parent : Option Nat)
    (p : Process) (requests : List (Int × Int)) (evs : List Event) (k : Nat) :
    (MainWindow.run (MainWindow.construct layout parent p)
        ((requests.map (fun r => Event.resizeRequest r.1 r.2)).take k)).1.widget.size
      = ⟨400, 300⟩ ∧
    (MainWindow.run (MainWindow.construct layout parent p) (evs.take k)).1.widget.size
      = ⟨400, 300⟩ := by
  constructor
  · rw [(run_window layout parent p _).1, construct_fst]
  · rw [(run_window layout parent p _).1, construct_fst]

/-- C4: construction calls the quit action zero times, and every sequence of
events after construction that contains no click on the exit control (resize
requests and other signals included) leaves the log of quit calls as it was
before construction. -/
theorem no_quit_without_click (layout : Ui_MainWindow) (parent : Option Nat)
    (p : Process) (hp : p.WellFormed) (evs : List Event)
    (hno : ∀ e ∈ evs, e.isExitClick = false) :
    (MainWindow.construct layout parent p).2.quitLog = p.quitLog ∧
    (MainWindow.run (MainWindow.construct layout parent p) evs).2.quitLog = p.quitLog ∧
    (MainWindow.run (MainWindow.construct layout parent p) evs).2.quitCount = p.quitCount := by
  have h0 : evs.countP Event.isExitClick = 0 := by
    rw [List.countP_eq_zero]
    intro e he
    simp [hno e he]
  have h1 : (MainWindow.run (MainWindow.construct layout parent p) evs).2.quitLog =
      p.quitLog := by
    rw [construct_run layout parent p hp evs, h0, withQuits_zero, construct_snd]
  exact ⟨rfl, h1, by rw [Process.quitCount, h1]; rfl⟩

/-- C5: destroying a constructed window, also after it handled events,
succeeds and releases exactly the descriptor its constructor allocated: one
entry is added to the log of allocations and the same one to the log of
releases, the descriptor was not live before construction, is live while the
window exists and is not live afterwards, and the live descriptors are those
from before the construction. -/
theorem destroy_releases_descriptor_once (layout : Ui_MainWindow) (parent : Option Nat)
    (p : Process) (hp : p.WellFormed) (evs : List Event) :
    ∃ q, (MainWindow.run (MainWindow.construct layout parent p) evs).1.destroy
          (MainWindow.run (MainWindow.construct layout parent p) evs).2 = some q ∧
      q.newLog = p.newLog ++ [(MainWindow.construct layout parent p).1.ui] ∧
      q.deleteLog = p.deleteLog ++ [(MainWindow.construct layout parent p).1.ui] ∧
      (MainWindow.construct layout parent p).1.ui ∉ p.liveUi ∧
      (MainWindow.construct layout parent p).1.ui ∈
        (MainWindow.run (MainWindow.construct layout parent p) evs).2.liveUi ∧
      (MainWindow.construct layout parent p).1.ui ∉ q.liveUi ∧
      q.liveUi = p.liveUi ∧ q.liveCount = p.liveCount := by
  obtain ⟨hw, k, hk⟩ := run_window layout parent p evs
  have hfresh : p.nextUi ∉ p.liveUi := fun hmem => Nat.lt_irrefl _ (hp.2 _ hmem)
  have hui : (MainWindow.construct layout parent p).1.ui = p.nextUi := by
    rw [construct_fst]
  rw [hw, hk, destroy_after_construct, hui]
  refine ⟨_, rfl, rfl, rfl, hfresh, ?_, hfresh, rfl, rfl⟩
  rw [construct_snd]
  simp [Process.withQuits]

/-- C6: for every `n`, constructing then destroying the window `n` times in a
row succeeds and leaves the live descriptors, hence their count, as they were
at the start. -/
theorem loop_keeps_live_count (layout : Ui_MainWindow) (parent : Option Nat)
    (n : Nat) (p : Process) :
    ∃ q, constructDestroyLoop layout parent n p = some q ∧
      q.liveUi = p.liveUi ∧ q.liveCount = p.liveCount := by
  induction n generalizing p with
  | zero => exact ⟨p, rfl, rfl, rfl⟩
  | succ n ih =>
    obtain ⟨p1, h1, hl, _, _⟩ := constructDestroy_eq layout parent p
    obtain ⟨q, hq, hql, hqc⟩ := ih p1
    refine ⟨q, ?_, hql.trans hl, ?_⟩
    · simp only [constructDestroyLoop, h1, hq]
    · rw [hqc, Process.liveCount, Process.liveCount, hl]

/-- C7: construction adds exactly one connection to the table: its sender is
the exit button of the new window, its signal `clicked`, its context the
window and its slot the quit action; in a process without connections it is
the only one. -/
theorem construct_installs_one_binding (layout : Ui_MainWindow) (parent : Option Nat)
    (p : Process) :
    (MainWindow.construct layout parent p).2.connections =
      p.connections ++
        [{ sender := exitButton (MainWindow.construct layout parent p).1.self,
           signal := Signal.clicked,
           context := QObjectRef.object (MainWindow.construct layout parent p).1.self,
           slot := Slot.quit }] ∧
    (MainWindow.construct layout parent p).2.connections.length =
      p.connections.length + 1 ∧
    (MainWindow.construct layout parent Process.init).2.connections =
      [{ sender := QObjectRef.child 0 "exitButton", signal := Signal.clicked,
         context := QObjectRef.object 0, slot := Slot.quit }] := by
  refine ⟨rfl, ?_, rfl⟩
  rw [construct_snd]
  simp

/-- C8: handling a click on the exit control, in any state a constructed
window reaches, leaves the window (size (400, 300), descriptor, identity) and
every part of the process other than the log of quit calls as they were; and
the window is the same after every sequence of events as right after
construction. -/
theorem click_changes_only_quit_log (layout : Ui_MainWindow) (parent : Option Nat)
    (p : Process) (evs : List Event) (c : Bool) :
    (MainWindow.handle (MainWindow.run (MainWindow.construct layout parent p) evs)
        (Event.exitClick c)).1 =
      (MainWindow.run (MainWindow.construct layout parent p) evs).1 ∧
    (MainWindow.handle (MainWindow.run (MainWindow.construct layout parent p) evs)
        (Event.exitClick c)).2 =
      { (MainWindow.run (MainWindow.construct layout parent p) evs).2 with
        quitLog := (MainWindow.handle (MainWindow.run (MainWindow.construct layout parent p) evs)
          (Event.exitClick c)).2.quitLog } ∧
    (MainWindow.handle (MainWindow.run (MainWindow.construct layout parent p) evs)
        (Event.exitClick c)).2.connections =
      (MainWindow.construct layout parent p).2.connections ∧
    (MainWindow.run (MainWindow.construct layout parent p) evs).1 =
      (MainWindow.construct layout parent p).1 ∧
    (MainWindow.run (MainWindow.construct layout parent p) evs).1.widget.size = ⟨400, 300⟩ ∧
    (MainWindow.run (MainWindow.construct layout parent p) evs).1.ui =
      (MainWindow.construct layout parent p).1.ui := by
  obtain ⟨hw, k, hk⟩ := run_window layout parent p evs
  have hfix : (MainWindow.run (MainWindow.construct layout parent p) evs).1.widget =
      ⟨⟨400, 300⟩, ⟨400, 300⟩, ⟨400, 300⟩⟩ := by rw [hw, construct_fst]
  rw [handle_eq _ ⟨400, 300⟩ _ hfix]
  refine ⟨rfl, rfl, ?_, hw, ?_, ?_⟩
  · rw [hk]; rfl
  · rw [hfix]
  · rw [hw]

/-- C9, as stated, fails: an emission of `clicked` carries an argument, the
`checked` state of the button. -/
theorem clicked_carries_argument : ¬ ((Emission.clicked true).arguments = []) := by
  decide

/-- C9, amended: the `clicked` signal carries one boolean argument, which the
binding drops: the quit action takes no parameter and is called once with no
arguments, and the state after a click is the same whatever the argument of
the click. -/
theorem click_effect_ignores_argument (layout : Ui_MainWindow) (parent : Option Nat)
    (p : Process) (hp : p.WellFormed) (c1 c2 : Bool) :
    (Emission.clicked c1).arguments = [c1] ∧ Slot.quit.arity = 0 ∧
    MainWindow.handle (MainWindow.construct layout parent p) (Event.exitClick c1) =
      MainWindow.handle (MainWindow.construct layout parent p) (Event.exitClick c2) ∧
    (MainWindow.handle (MainWindow.construct layout parent p) (Event.exitClick c1)).2.quitLog =
      p.quitLog ++ [[]] := by
  have hfix : (MainWindow.construct layout parent p).1.widget =
      ⟨⟨400, 300⟩, ⟨400, 300⟩, ⟨400, 300⟩⟩ := by rw [construct_fst]
  have hself : (MainWindow.construct layout parent p).1.self = p.nextObject := by
    rw [construct_fst]
  have hq : ∀ c, MainWindow.handle (MainWindow.construct layout parent p) (Event.exitClick c) =
      ((MainWindow.construct layout parent p).1,
       (MainWindow.construct layout parent p).2.withQuits 1) := by
    intro c
    rw [handle_eq _ ⟨400, 300⟩ _ hfix, hself, construct_quitsOf layout parent p hp]
    rfl
  refine ⟨rfl, rfl, ?_, ?_⟩
  · rw [hq c1, hq c2]
  · rw [hq c1]
    rfl

/-- C10: the binding is registered with the window as its context object and
is in the table while the window exists; destroying the window succeeds and
leaves the table as it was before construction, and no event delivered for
the controls of the destroyed window afterwards, clicks on the exit control
included, changes the process: the quit action is not called. -/
theorem no_quit_after_destroy (layout : Ui_MainWindow) (parent : Option Nat)
    (p : Process) (hp : p.WellFormed) (before later : List Event) (clicks : List Bool) :
    ({ sender := exitButton (MainWindow.construct layout parent p).1.self,
       signal := Signal.clicked,
       context := QObjectRef.object (MainWindow.construct layout parent p).1.self,
       slot := Slot.quit } : Connection) ∈
      (MainWindow.run (MainWindow.construct layout parent p) before).2.connections ∧
    ∃ q, (MainWindow.run (MainWindow.construct layout parent p) before).1.destroy
          (MainWindow.run (MainWindow.construct layout parent p) before).2 = some q ∧
      q.connections = p.connections ∧
      later.foldl (Process.stale (MainWindow.construct layout parent p).1.self) q = q ∧
      ((clicks.map Event.exitClick).foldl
        (Process.stale (MainWindow.construct layout parent p).1.self) q).quitLog = q.quitLog ∧
      ((clicks.map Event.exitClick).foldl
        (Process.stale (MainWindow.construct layout parent p).1.self) q).quitCount =
        q.quitCount := by
  obtain ⟨hw, k, hk⟩ := run_window layout parent p before
  have hself : (MainWindow.construct layout parent p).1.self = p.nextObject := by
    rw [construct_fst]
  rw [hw, hk, destroy_after_construct, hself, filter_fresh p hp]
  constructor
  · rw [construct_snd]
    simp [Process.withQuits, exitBinding]
  · have hq : ∀ (l : List Event) (q : Process), q.connections = p.connections →
        l.foldl (Process.stale p.nextObject) q = q := by
      intro l q hc
      apply stale_eq
      intro c hmem
      rw [hc] at hmem
      exact Nat.ne_of_lt (hp.1 c hmem).1
    exact ⟨_, rfl, rfl, hq later _ rfl, congrArg Process.quitLog (hq _ _ rfl),
      congrArg Process.quitCount (hq _ _ rfl)⟩

/-! ## Instances of the statements that carry hypotheses -/

theorem quit_count_equals_click_count_witness :
    Process.init.WellFormed ∧
    ((MainWindow.run (MainWindow.construct sampleLayout none Process.init)
        ([true, false, false].map Event.exitClick)).2.quitCount =
        Process.init.quitCount + [true, false, false].length ∧
     (MainWindow.run (MainWindow.construct sampleLayout none Process.init)
        [Event.exitClick false, Event.resizeRequest 1024 768,
         Event.control "exitButton" Emission.pressed, Event.exitClick false]).2.quitCount =
        Process.init.quitCount +
          [Event.exitClick false, Event.resizeRequest 1024 768,
           Event.control "exitButton" Emission.pressed,
           Event.exitClick false].countP Event.isExitClick ∧
     (MainWindow.handle (MainWindow.construct sampleLayout none Process.init)
        (Event.exitClick false)).2.quitCount = Process.init.quitCount + 1) :=
  ⟨by decide,
   quit_count_equals_click_count sampleLayout none Process.init (by decide)
     [true, false, false]
     [Event.exitClick false, Event.resizeRequest 1024 768,
      Event.control "exitButton" Emission.pressed, Event.exitClick false] false⟩

theorem no_quit_without_click_witness :
    Process.init.WellFormed ∧
    (∀ e ∈ [Event.resizeRequest 1024 768, Event.control "exitButton" Emission.pressed,
            Event.control "helpButton" (Emission.clicked false)],
        e.isExitClick = false) ∧
    ((MainWindow.construct sampleLayout (some 7) Process.init).2.quitLog =
        Process.init.quitLog ∧
     (MainWindow.run (MainWindow.construct sampleLayout (some 7) Process.init)
        [Event.resizeRequest 1024 768, Event.control "exitButton" Emission.pressed,
         Event.control "helpButton" (Emission.clicked false)]).2.quitLog =
        Process.init.quitLog ∧
     (MainWindow.run (MainWindow.construct sampleLayout (some 7) Process.init)
        [Event.resizeRequest 1024 768, Event.control "exitButton" Emission.pressed,
         Event.control "helpButton" (Emission.clicked false)]).2.quitCount =
        Process.init.quitCount) :=
  ⟨by decide, by decide,
   no_quit_without_click sampleLayout (some 7) Process.init (by decide)
     [Event.resizeRequest 1024 768, Event.control "exitButton" Emission.pressed,
      Event.control "helpButton" (Emission.clicked false)] (by decide)⟩

theorem destroy_releases_descriptor_once_witness :
    Process.init.WellFormed ∧
    ∃ q, (MainWindow.run (MainWindow.construct sampleLayout none Process.init)
            [Event.exitClick false]).1.destroy
          (MainWindow.run (MainWindow.construct sampleLayout none Process.init)
            [Event.exitClick false]).2 = some q ∧
      q.newLog = Process.init.newLog ++
        [(MainWindow.construct sampleLayout none Process.init).1.ui] ∧
      q.deleteLog = Process.init.deleteLog ++
        [(MainWindow.construct sampleLayout none Process.init).1.ui] ∧
      (MainWindow.construct sampleLayout none Process.init).1.ui ∉ Process.init.liveUi ∧
      (MainWindow.construct sampleLayout none Process.init).1.ui ∈
        (MainWindow.run (MainWindow.construct sampleLayout none Process.init)
          [Event.exitClick false]).2.liveUi ∧
      (MainWindow.construct sampleLayout none Process.init).1.ui ∉ q.liveUi ∧
      q.liveUi = Process.init.liveUi ∧ q.liveCount = Process.init.liveCount :=
  ⟨by decide,
   destroy_releases_descriptor_once sampleLayout none Process.init (by decide)
     [Event.exitClick false]⟩

theorem click_effect_ignores_argument_witness :
    busyProcess.WellFormed ∧
    ((Emission.clicked true).arguments = [true] ∧ Slot.quit.arity = 0 ∧
     MainWindow.handle (MainWindow.construct sampleLayout none busyProcess)
         (Event.exitClick true) =
       MainWindow.handle (MainWindow.construct sampleLayout none busyProcess)
         (Event.exitClick false) ∧
     (MainWindow.handle (MainWindow.construct sampleLayout none busyProcess)
         (Event.exitClick true)).2.quitLog = busyProcess.quitLog ++ [[]]) :=
  ⟨by decide, click_effect_ignores_argument sampleLayout none busyProcess (by decide) true false⟩

theorem no_quit_after_destroy_witness :
    busyProcess.WellFormed ∧
    (({ sender := exitButton (MainWindow.construct sampleLayout none busyProcess).1.self,
        signal := Signal.clicked,
        context := QObjectRef.object (MainWindow.construct sampleLayout none busyProcess).1.self,
        slot := Slot.quit } : Connection) ∈
      (MainWindow.run (MainWindow.construct sampleLayout none busyProcess)
        [Event.exitClick false]).2.connections ∧
    ∃ q, (MainWindow.run (MainWindow.construct sampleLayout none busyProcess)
            [Event.exitClick false]).1.destroy
          (MainWindow.run (MainWindow.construct sampleLayout none busyProcess)
            [Event.exitClick false]).2 = some q ∧
      q.connections = busyProcess.connections ∧
      [Event.exitClick true, Event.resizeRequest 10 10].foldl
        (Process.stale (MainWindow.construct sampleLayout none busyProcess).1.self) q = q ∧
      (([true, false].map Event.exitClick).foldl
        (Process.stale (MainWindow.construct sampleLayout none busyProcess).1.self) q).quitLog =
        q.quitLog ∧
      (([true, false].map Event.exitClick).foldl
        (Process.stale (MainWindow.construct sampleLayout none busyProcess).1.self) q).quitCount =
        q.quitCount) :=
  ⟨by decide,
   no_quit_after_destroy sampleLayout none busyProcess (by decide)
     [Event.exitClick false] [Event.exitClick true, Event.resizeRequest 10 10] [true, false]⟩

end QtTestApp
